import Mathlib

/-!
# Verification of the LinkedIn profile-extraction pipeline

Shallow embedding of the core of the repository (files `scraper.py` and
`ai_parser.py`) and proofs settling the frozen claims about it.

Modelling conventions:
* Python dictionaries are association lists (`PyDict`) with CPython
  insertion-order update semantics (`dictSet`).
* Python values flowing through the pipeline are `PyVal`; non-integer JSON
  number literals are kept as their source text (`PyVal.float`), which is
  enough because no claim depends on float arithmetic.
* External effects (the browser driver, the LLM service, file writes) are
  inputs: each call site is a field of an environment record holding the
  outcome of that call (`Except PyExc _` when Python code there may raise).
* Python exceptions are `PyExc`; `try/except` blocks become `match`es on
  `Except` values, scoped exactly as the source scopes its handlers.
* `\s`, `str.strip` and `str.isdigit` are modelled on ASCII characters,
  which is faithful for every input exercised by the claims.
-/

set_option autoImplicit false
set_option maxRecDepth 8000

namespace Scraper

/-- Python runtime values, as far as the pipeline manipulates them. -/
inductive PyVal where
  | none
  | bool (b : Bool)
  | int (n : Int)
  | float (lit : String)
  | str (s : String)
  | list (xs : List PyVal)
  | dict (fields : List (String × PyVal))

/-- A Python dictionary with string keys. -/
abbrev PyDict := List (String × PyVal)

/-- `d[k] = v`: CPython semantics — an existing key keeps its position and
gets the new value, a new key is appended at the end. -/
def dictSet : PyDict → String → PyVal → PyDict
  | [], k, v => [(k, v)]
  | (k0, v0) :: rest, k, v =>
    if k0 = k then (k0, v) :: rest else (k0, v0) :: dictSet rest k v

/-- Lookup of a key (first, hence unique, binding). -/
def dictGet : PyDict → String → Option PyVal
  | [], _ => Option.none
  | (k0, v0) :: rest, k => if k0 = k then some v0 else dictGet rest k

/-- `d.get(k, dflt)`. -/
def dictGetD (d : PyDict) (k : String) (dflt : PyVal) : PyVal :=
  (dictGet d k).getD dflt

/-- `k in d`. -/
def dictHasKey (d : PyDict) (k : String) : Bool :=
  (dictGet d k).isSome

/-- `list(d.keys())`. -/
def dictKeys (d : PyDict) : List String :=
  d.map Prod.fst

/-- Zero test for a float literal: the untruthy floats are those whose
mantissa digits are all `0` (`0`, `0.0`, `-0.0`, `0e5`, ...); the json
constants `NaN`/`Infinity` are truthy. -/
def floatLitZero (lit : String) : Bool :=
  let mantissa := lit.data.takeWhile (fun c => !(c = 'e' || c = 'E'))
  mantissa.any Char.isDigit && mantissa.all (fun c => !c.isDigit || c = '0')

/-- Python truthiness of a value. -/
def pyTruthy : PyVal → Bool
  | .none => false
  | .bool b => b
  | .int n => decide (n ≠ 0)
  | .float lit => !floatLitZero lit
  | .str s => !s.data.isEmpty
  | .list xs => !xs.isEmpty
  | .dict fs => !fs.isEmpty

/-- `len(v)` for sized values; `Option.none` models the `TypeError` raised
by `len` on numbers, booleans and `None`. -/
def pyLen : PyVal → Option Nat
  | .str s => some s.length
  | .list xs => some xs.length
  | .dict fs => some fs.length
  | _ => Option.none

/-- Python exceptions, distinguished as far as the handlers in the source
distinguish them. -/
inductive PyExc where
  | importError (msg : String)
  | valueError (msg : String)
  | attributeError (msg : String)
  | typeError (msg : String)
  | other (msg : String)

/-- The `str(e)` of an exception. -/
def PyExc.msg : PyExc → String
  | .importError m => m
  | .valueError m => m
  | .attributeError m => m
  | .typeError m => m
  | .other m => m

/-- Does `except ImportError` catch this exception? -/
def PyExc.isImportError : PyExc → Bool
  | .importError _ => true
  | _ => false

/-! ## Character and string helpers mirroring the Python string API -/

/-- The apostrophe character (written via its code point). -/
def quoteChar : Char := Char.ofNat 39

/-- ASCII whitespace, the relevant fragment of Python's `str.strip` /
regex `\s` character class. -/
def isPySpace (c : Char) : Bool :=
  c = ' ' || c = '\t' || c = '\n' || c = '\r' || c = '\x0b' || c = '\x0c'

/-- `line.strip()` on a character list. -/
def pyStripChars (l : List Char) : List Char :=
  ((l.dropWhile isPySpace).reverse.dropWhile isPySpace).reverse

/-- `s.strip()`. -/
def pyStrip (s : String) : String :=
  ⟨pyStripChars s.data⟩

/-- Auxiliary for splitting on a single character, accumulating the
current fragment reversed. -/
def splitOnCharAux (sep : Char) : List Char → List Char → List (List Char)
  | [], acc => [acc.reverse]
  | c :: rest, acc =>
    if c = sep then acc.reverse :: splitOnCharAux sep rest []
    else splitOnCharAux sep rest (c :: acc)

/-- `s.split(sep)` for a one-character separator (`''.split` gives `['']`,
as in Python). -/
def splitOnChar (sep : Char) (l : List Char) : List (List Char) :=
  splitOnCharAux sep l []

/-- Join fragments with a newline (`'\n'.join(lines)`). -/
def joinNl : List (List Char) → List Char
  | [] => []
  | [l] => l
  | l :: ls => l ++ '\n' :: joinNl ls

/-- Contiguous-substring test on character lists. -/
def charsInfix (needle : List Char) : List Char → Bool
  | [] => needle.isEmpty
  | c :: rest => needle.isPrefixOf (c :: rest) || charsInfix needle rest

/-- `needle in hay` for strings. -/
def pyIn (needle hay : String) : Bool :=
  charsInfix needle.data hay.data

/-- Auxiliary for `str.split` with a multi-character separator: scan left
to right, matching non-overlapping occurrences. -/
def pySplitAux (sep : List Char) : Nat → List Char → List Char → List (List Char)
  | 0, l, acc => [acc.reverse ++ l]
  | fuel + 1, l, acc =>
    if sep.isPrefixOf l && !sep.isEmpty then
      acc.reverse :: pySplitAux sep fuel (l.drop sep.length) []
    else
      match l with
      | [] => [acc.reverse]
      | c :: rest => pySplitAux sep fuel rest (c :: acc)

/-- `s.split(sep)` for a non-empty separator string. -/
def pySplit (s sep : String) : List String :=
  (pySplitAux sep.data (s.length + 1) s.data []).map List.asString

/-- `l[i]` on the results of a split known to be long enough (defaults to
the empty string, a case the call sites never reach). -/
def pyGet (l : List String) (i : Nat) : String :=
  l.getD i ""

/-! ## `json.loads`

A recursive-descent JSON parser with the semantics of Python's `json`
module in strict mode: double-quoted strings with the standard escapes,
unescaped control characters rejected, no leading zeros in numbers, the
constants `NaN`/`Infinity`/`-Infinity` accepted, duplicate object keys
resolved last-value-wins at the first occurrence's position, and trailing
data after the top-level value rejected.  `\uXXXX` escapes naming lone
surrogates are rejected (Lean's `Char` cannot hold them); no claim
depends on that corner. -/

/-- JSON inter-token whitespace. -/
def isJsonWs (c : Char) : Bool :=
  c = ' ' || c = '\t' || c = '\n' || c = '\r'

/-- Skip JSON whitespace. -/
def skipJWs (l : List Char) : List Char :=
  l.dropWhile isJsonWs

/-- Value of a hex digit, by code-point arithmetic (`0`-`9` occupy
48-57, `a`-`f` occupy 97-102, `A`-`F` occupy 65-70). -/
def hexDigitVal (c : Char) : Option Nat :=
  let cp := c.toNat
  if 48 ≤ cp && cp ≤ 57 then some (cp - 48)
  else if 97 ≤ cp && cp ≤ 102 then some (cp - 87)
  else if 65 ≤ cp && cp ≤ 70 then some (cp - 55)
  else Option.none

/-- Decode a one-letter escape (whatever follows a backslash other than
`u`). -/
def escapeChar (c : Char) : Option Char :=
  if c = '"' then some '"'
  else if c = '\\' then some '\\'
  else if c = '/' then some '/'
  else if c = 'b' then some (Char.ofNat 8)
  else if c = 'f' then some (Char.ofNat 12)
  else if c = 'n' then some '\n'
  else if c = 'r' then some '\r'
  else if c = 't' then some '\t'
  else Option.none

/-- Combine four hex digits into one code point. -/
def hexQuad (h1 h2 h3 h4 : Char) : Option Nat :=
  match hexDigitVal h1, hexDigitVal h2, hexDigitVal h3, hexDigitVal h4 with
  | some d1, some d2, some d3, some d4 =>
    some (((d1 * 16 + d2) * 16 + d3) * 16 + d4)
  | _, _, _, _ => Option.none

/-- Parse the body of a JSON string (opening quote already consumed),
accumulating decoded characters in reverse. -/
def parseJString (acc : List Char) : List Char → Option (String × List Char)
  | [] => Option.none
  | '"' :: rest => some (⟨acc.reverse⟩, rest)
  | '\\' :: rest =>
    match rest with
    | 'u' :: h1 :: h2 :: h3 :: h4 :: r =>
      match hexQuad h1 h2 h3 h4 with
      | some code =>
        if 0xD800 ≤ code && code ≤ 0xDFFF then Option.none
        else parseJString (Char.ofNat code :: acc) r
      | Option.none => Option.none
    | e :: r =>
      match escapeChar e with
      | some decoded => parseJString (decoded :: acc) r
      | Option.none => Option.none
    | [] => Option.none
  | c :: rest =>
    if c.toNat < 0x20 then Option.none else parseJString (c :: acc) rest

/-- Decimal value of a digit run. -/
def digitsVal (l : List Char) : Nat :=
  l.foldl (fun a c => 10 * a + (c.toNat - '0'.toNat)) 0

/-- Parse a JSON number (`-?(0|[1-9]\d*)(\.\d+)?([eE][-+]?\d+)?`); pure
integer literals become `PyVal.int`, anything with a fraction or exponent
keeps its literal text as `PyVal.float`. -/
def parseNumber (cs : List Char) : Option (PyVal × List Char) :=
  let sgn : List Char := if cs.headD ' ' = '-' then ['-'] else []
  let cs1 := if sgn.isEmpty then cs else cs.tail
  let intDigits := cs1.takeWhile Char.isDigit
  let cs2 := cs1.dropWhile Char.isDigit
  if intDigits.isEmpty then Option.none
  else if 2 ≤ intDigits.length && intDigits.headD ' ' = '0' then Option.none
  else
    let fracRes : Option (List Char) × List Char :=
      match cs2 with
      | '.' :: r =>
        let ds := r.takeWhile Char.isDigit
        if ds.isEmpty then (Option.none, cs2)
        else (some ('.' :: ds), r.dropWhile Char.isDigit)
      | _ => (Option.none, cs2)
    let cs3 := fracRes.2
    let expRes : Option (List Char) × List Char :=
      match cs3 with
      | c :: r =>
        if c = 'e' || c = 'E' then
          let sgn2 : List Char :=
            if r.headD ' ' = '+' || r.headD ' ' = '-' then [r.headD ' '] else []
          let r2 := if sgn2.isEmpty then r else r.tail
          let ds := r2.takeWhile Char.isDigit
          if ds.isEmpty then (Option.none, cs3)
          else (some (c :: (sgn2 ++ ds)), r2.dropWhile Char.isDigit)
        else (Option.none, cs3)
      | [] => (Option.none, cs3)
    match fracRes.1, expRes.1 with
    | Option.none, Option.none =>
      let n : Int := Int.ofNat (digitsVal intDigits)
      some (.int (if sgn.isEmpty then n else -n), cs2)
    | f, e =>
      some (.float ⟨sgn ++ intDigits ++ f.getD [] ++ e.getD []⟩, expRes.2)

mutual

/-- Parse one JSON value at the head of the input (leading whitespace
already skipped by the caller). -/
def parseJValue : Nat → List Char → Option (PyVal × List Char)
  | 0, _ => Option.none
  | fuel + 1, cs =>
    match cs with
    | [] => Option.none
    | c :: rest =>
      if c = '"' then
        (parseJString [] rest).map (fun p => (PyVal.str p.1, p.2))
      else if c = '{' then
        match skipJWs rest with
        | '}' :: r => some (.dict [], r)
        | cs1 => parseJMembers fuel [] cs1
      else if c = '[' then
        match skipJWs rest with
        | ']' :: r => some (.list [], r)
        | cs1 => parseJItems fuel [] cs1
      else if "true".data.isPrefixOf cs then some (.bool true, cs.drop 4)
      else if "false".data.isPrefixOf cs then some (.bool false, cs.drop 5)
      else if "null".data.isPrefixOf cs then some (.none, cs.drop 4)
      else if "NaN".data.isPrefixOf cs then some (.float "NaN", cs.drop 3)
      else if "Infinity".data.isPrefixOf cs then some (.float "Infinity", cs.drop 8)
      else if "-Infinity".data.isPrefixOf cs then some (.float "-Infinity", cs.drop 9)
      else parseNumber cs

/-- Parse the members of a JSON object (opening brace consumed, input
positioned at the first key). -/
def parseJMembers : Nat → PyDict → List Char → Option (PyVal × List Char)
  | 0, _, _ => Option.none
  | fuel + 1, d, cs =>
    match cs with
    | '"' :: rest =>
      match parseJString [] rest with
      | Option.none => Option.none
      | some (k, r1) =>
        match skipJWs r1 with
        | ':' :: r2 =>
          match parseJValue fuel (skipJWs r2) with
          | Option.none => Option.none
          | some (v, r3) =>
            match skipJWs r3 with
            | ',' :: r4 => parseJMembers fuel (dictSet d k v) (skipJWs r4)
            | '}' :: r4 => some (.dict (dictSet d k v), r4)
            | _ => Option.none
        | _ => Option.none
    | _ => Option.none

/-- Parse the items of a JSON array (opening bracket consumed, input
positioned at the first item). -/
def parseJItems : Nat → List PyVal → List Char → Option (PyVal × List Char)
  | 0, _, _ => Option.none
  | fuel + 1, xs, cs =>
    match parseJValue fuel cs with
    | Option.none => Option.none
    | some (v, r1) =>
      match skipJWs r1 with
      | ',' :: r2 => parseJItems fuel (xs ++ [v]) (skipJWs r2)
      | ']' :: r2 => some (.list (xs ++ [v]), r2)
      | _ => Option.none

end

/-- `json.loads`: parse a complete document, rejecting trailing data. -/
def json_loads (s : String) : Option PyVal :=
  match parseJValue (s.length + 1) (skipJWs s.data) with
  | some (v, rest) => if (skipJWs rest).isEmpty then some v else Option.none
  | Option.none => Option.none

/-! ## The two-step textual JSON repair (ai_parser.py lines 258-259) -/

/-- `response_text.replace("'", '"')`: every apostrophe becomes a double
quote. -/
def pyReplaceQuotes (s : String) : String :=
  ⟨s.data.map (fun c => if c = quoteChar then '"' else c)⟩

/-- `re.sub(r',(\s*[}\]])', r'\1', text)`: left-to-right, non-overlapping;
a comma followed by optional whitespace and a closing brace or bracket is
replaced by the whitespace and the bracket, scanning resuming after the
bracket. -/
def stripTrailingCommasAux : Nat → List Char → List Char
  | 0, l => l
  | _ + 1, [] => []
  | fuel + 1, c :: rest =>
    if c = ',' then
      match rest.dropWhile isPySpace with
      | b :: tail =>
        if b = '}' || b = ']' then
          rest.takeWhile isPySpace ++ b :: stripTrailingCommasAux fuel tail
        else c :: stripTrailingCommasAux fuel rest
      | [] => c :: stripTrailingCommasAux fuel rest
    else c :: stripTrailingCommasAux fuel rest

/-- The composed repair: quote substitution, then trailing-comma strip. -/
def repairJson (s : String) : String :=
  let t := (pyReplaceQuotes s).data
  ⟨stripTrailingCommasAux (t.length + 1) t⟩

/-- ai_parser.py lines 252-260: parse the cleaned response text; only if
that raises does the repair run, followed by exactly one re-parse. -/
def loadsWithRepair (s : String) : Option PyVal :=
  match json_loads s with
  | some v => some v
  | Option.none => json_loads (repairJson s)

/-! ## Text Normalizer — `GeminiProfileParser.html_to_clean_text`
(ai_parser.py lines 47-131)

`BeautifulSoup` is an external capability: its contribution is reduced to
the list of outcomes of the four selector lookups (lines 64-69), each
carrying the `get_text('\n', strip=True)` of the found node. Everything
from line 84 on is modelled exactly. The `0.3` threshold of line 106 is
the exact rational 3/10 (for integer counts and realistic line lengths
the float comparison of the source agrees). The debug-preview write of
lines 121-123 is an effect whose outcome is an input.  Printing is
ignored throughout. -/

/-- Count of characters from the set `{}[]":,` (line 105). -/
def countSpecial (l : List Char) : Nat :=
  (l.filter (fun c => c = '{' || c = '}' || c = '[' || c = ']' ||
      c = '"' || c = ':' || c = ',')).length

/-- `line.isdigit()` restricted to ASCII digits. -/
def pyIsDigit (l : List Char) : Bool :=
  !l.isEmpty && l.all Char.isDigit

/-- Does a (stripped) line survive the filters of lines 88-107? -/
def keepLine (l : List Char) : Bool :=
  !l.isEmpty &&
  !pyIsDigit l &&
  Nat.blt 2 l.length &&
  !(l.headD ' ' = '{') &&
  !(l.headD ' ' = '[') &&
  !charsInfix "urn:li:".data l &&
  Nat.ble (10 * countSpecial l) (3 * l.length)

/-- Lines 84-109: split the extracted text on newlines, strip each line,
keep the survivors. -/
def keptLines (text : List Char) : List (List Char) :=
  ((splitOnChar '\n' text).map pyStripChars).filter keepLine

/-- Lines 84-116: filter, join with newlines, and hard-truncate at 40000
characters. -/
def clean_lines_pipeline (text : String) : String :=
  let ct := joinNl (keptLines text.data)
  ⟨if Nat.blt 40000 ct.length then ct.take 40000 else ct⟩

/-- Lines 61-78: first non-`None` of the selector chain (the fourth entry
is `soup.find('body')`). -/
def pickMain (sels : List (Option String)) : Option String :=
  sels.findSome? id

/-- Lines 84-125 for a successfully selected content node. -/
def html_clean_rest (text : String) (dbgPreview : Except PyExc Unit) :
    Except PyExc String :=
  let c := clean_lines_pipeline text
  match dbgPreview with
  | .error e => .error e
  | .ok _ => .ok c

/-- The body of the `try` in `html_to_clean_text`: the soup construction
may raise, a fully empty selector chain raises `AttributeError` on
`None.get_text` (even after the line-78 re-lookup of `body`, the fourth
selector), and the debug-preview write may raise. -/
def html_clean_body (soup : Except PyExc (List (Option String)))
    (dbgPreview : Except PyExc Unit) : Except PyExc String :=
  match soup with
  | .error e => .error e
  | .ok sels =>
    match pickMain sels with
    | Option.none =>
      match sels.getD 3 Option.none with
      | Option.none => .error (.attributeError "NoneType object has no attribute get_text")
      | some text => html_clean_rest text dbgPreview
    | some text => html_clean_rest text dbgPreview

/-- The `try/except` of lines 49-131 run to completion: the catch-all
handler turns any exception into a normal `None` return, so the whole
call never re-raises. -/
def html_to_clean_text_run (soup : Except PyExc (List (Option String)))
    (dbgPreview : Except PyExc Unit) : Except PyExc (Option String) :=
  match html_clean_body soup dbgPreview with
  | .error _ => .ok Option.none
  | .ok s => .ok (some s)

/-- `html_to_clean_text` as its caller sees it. -/
def html_to_clean_text (soup : Except PyExc (List (Option String)))
    (dbgPreview : Except PyExc Unit) : Option String :=
  match html_to_clean_text_run soup dbgPreview with
  | .ok r => r
  | .error _ => Option.none

/-! ## Extraction Prompter — `GeminiProfileParser` response handling
(ai_parser.py lines 133-330)

The LLM call is an external capability; its outcome (lines 192-227) is
the input `LLMResp`.  The generated prompt (lines 141-182) does not
influence the record beyond the opaque LLM response, so it is not
reconstructed.  Debug-artifact writes inside the Prompter are modelled as
succeeding; their failure would only route through the catch-all handlers
into the ordinary failure record. -/

/-- Outcome of `generate_content` plus the response accessors:
`textOk` — `response.text` succeeds; `textFail` — `.text` raises
`ValueError` and the candidate list (each candidate a list of parts, each
part optionally exposing text) is inspected; `raises` — the call itself
raises. -/
inductive LLMResp where
  | textOk (s : String)
  | textFail (candidates : List (List (Option String)))
  | raises (e : PyExc)

/-- Lines 197-227: recover the response text, or `None` when the response
is blocked or carries no text parts. -/
def getResponseText : LLMResp → Option String
  | .textOk s => some (pyStrip s)
  | .textFail cands =>
    if cands.isEmpty then Option.none
    else
      let parts := (cands.map (fun c => c.filterMap id)).flatten
      if parts.isEmpty then Option.none
      else some (pyStrip (String.intercalate "\n" parts))
  | .raises _ => Option.none

/-- Lines 234-247: strip a markdown fence, then cut to the span from the
first `{` through the last `}`. -/
def cleanResponseText (rt : String) : String :=
  let rt :=
    if pyIn "```json" rt then
      pyStrip (pyGet (pySplit (pyGet (pySplit rt "```json") 1) "```") 0)
    else if pyIn "```" rt then
      pyStrip (pyGet (pySplit (pyGet (pySplit rt "```") 1) "```") 0)
    else rt
  let rt := if rt.data.contains '{' then ⟨rt.data.dropWhile (fun c => !(c = '{'))⟩ else rt
  let rt := if rt.data.contains '}' then
      ⟨(rt.data.reverse.dropWhile (fun c => !(c = '}'))).reverse⟩
    else rt
  rt

/-- Lines 197-260 composed: the parsed response object, provided the
response yielded text, the (possibly repaired) text parsed, and the
parsed value is a dictionary (anything else raises `TypeError` at the
line-262 item assignment, swallowed by the catch-all). -/
def responseDict (resp : LLMResp) : Option PyDict :=
  match getResponseText resp with
  | Option.none => Option.none
  | some rt =>
    match loadsWithRepair (cleanResponseText rt) with
    | some (.dict d) => some d
    | _ => Option.none

/-- The `N/A` placeholder for an empty `experiences` list (line 268). -/
def placeholderExp : PyVal :=
  .list [.dict [("title", .str "N/A"), ("company", .str "N/A"), ("duration", .str "N/A")]]

/-- The `N/A` placeholder for an empty `educations` list (line 271). -/
def placeholderEdu : PyVal :=
  .list [.dict [("school", .str "N/A"), ("degree", .str "N/A"), ("field", .str "N/A")]]

/-- The `N/A` placeholder for an empty `skills` list (line 274). -/
def placeholderSkills : PyVal :=
  .list [.str "N/A"]

/-- One default-substitution step (lines 267-274):
`if not pd.get(key) or len(pd.get(key, [])) == 0: pd[key] = placeholder`.
A falsy value short-circuits to the placeholder; a truthy unsized value
reaches `len` and raises `TypeError` (`Option.none`, swallowed upstream
into an extraction failure). -/
def normalizeField (d : PyDict) (key : String) (ph : PyVal) : Option PyDict :=
  if !pyTruthy (dictGetD d key .none) then some (dictSet d key ph)
  else
    match pyLen (dictGetD d key (.list [])) with
    | Option.none => Option.none
    | some n => if n = 0 then some (dictSet d key ph) else some d

/-- Lines 262-274: attach `profile_url`, `success=True`, `error=None`,
then substitute the three placeholders. -/
def finalize (d : PyDict) (url : String) : Option PyDict :=
  let d := dictSet d "profile_url" (.str url)
  let d := dictSet d "success" (.bool true)
  let d := dictSet d "error" PyVal.none
  (normalizeField d "experiences" placeholderExp).bind fun d =>
    (normalizeField d "educations" placeholderEdu).bind fun d =>
      normalizeField d "skills" placeholderSkills

/-- `extract_structured_data_with_gemini` (lines 133-308): `Option.none`
is the `return None` of every failure path (blocked response, no text,
unparseable JSON, non-dict JSON, `TypeError` during placeholder
substitution, or the LLM call raising). The clean text only feeds the
prompt, hence does not affect the result. -/
def with_gemini (resp : LLMResp) (cleanText url : String) : Option PyDict :=
  match responseDict resp with
  | Option.none => Option.none
  | some d => finalize d url

/-- The failure `ProfileRecord` `{'profile_url': url, 'error': msg,
'success': False}`, the shape every failure site of the source builds. -/
def mkFailure (url msg : String) : PyDict :=
  [("profile_url", .str url), ("error", .str msg), ("success", .bool false)]

/-- `extract_structured_data` (lines 310-330): a `None` from the Gemini
helper (or a falsy, i.e. empty, dict — unreachable) becomes the
`'Gemini extraction failed'` record. -/
def extract_structured_data (resp : LLMResp) (cleanText url : String) : PyDict :=
  match with_gemini resp cleanText url with
  | some pd => if pd.isEmpty then mkFailure url "Gemini extraction failed" else pd
  | Option.none => mkFailure url "Gemini extraction failed"

/-! ## `GeminiProfileParser.parse_profile` (ai_parser.py lines 332-387) -/

/-- The external outcomes one `parse_profile` call consumes. -/
structure ParseEnv where
  /-- `self.driver.page_source` (may raise; caught by the outer handler). -/
  pageHtml : Except PyExc String
  /-- soup construction + selector lookups for a given page source. -/
  soupSelectors : String → Except PyExc (List (Option String))
  /-- the `debug_clean_preview.txt` write inside the normalizer. -/
  dbgPreview : Except PyExc Unit
  /-- the `debug_clean_text.txt` write of lines 362-364. -/
  dbgCleanText : Except PyExc Unit
  /-- outcome of the LLM call. -/
  llm : LLMResp

/-- `parse_profile`.  The second component records whether the LLM
capability was invoked for this input.  The short-circuit of lines
354-359 fires when normalization returns `None` or fewer than 100
characters (Python's `not clean_text` also catches the empty string,
which the length test subsumes). -/
def parse_profile (env : ParseEnv) (url : String) : PyDict × Bool :=
  match env.pageHtml with
  | .error e => (mkFailure url e.msg, false)
  | .ok html =>
    match html_to_clean_text (env.soupSelectors html) env.dbgPreview with
    | Option.none => (mkFailure url "Failed to extract text from HTML", false)
    | some ct =>
      if ct.length < 100 then (mkFailure url "Failed to extract text from HTML", false)
      else
        match env.dbgCleanText with
        | .error e => (mkFailure url e.msg, false)
        | .ok _ =>
          let pd := extract_structured_data env.llm ct url
          if pyTruthy (dictGetD pd "success" .none) then (pd, true)
          else
            ([("profile_url", .str url),
              ("error", dictGetD pd "error" (.str "Failed to extract structured data")),
              ("success", .bool false)], true)

/-! ## Profile Pipeline — `LinkedInScraper` (scraper.py lines 106-214) -/

/-- `GeminiProfileParser.__init__` (ai_parser.py lines 19-41): a missing,
empty or placeholder `GEMINI_API_KEY` raises `ValueError`; so does a
failing `genai.configure`. -/
def geminiParserInit (apiKey : Option String) (configureOk : Bool) : Except PyExc Unit :=
  let keyMissing := match apiKey with
    | Option.none => true
    | some k => k = "" || k = "your_gemini_key_here"
  if keyMissing then
    .error (.valueError "GEMINI_API_KEY not found. This parser requires Gemini AI.")
  else if configureOk then .ok ()
  else .error (.valueError "Failed to configure Gemini: configure raised")

/-- The external outcomes one `extract_profile_data` call consumes. -/
structure ScrapeEnv where
  /-- `driver.get` + settling delay + `driver.current_url` (scraper.py
  lines 110-116); success carries the post-navigation URL. -/
  navRaw : Except PyExc String
  /-- `from ai_parser import ...` and `GeminiProfileParser(driver)`
  (scraper.py lines 169-170). -/
  constructParser : Except PyExc Unit
  /-- environment of the inner `parse_profile` call. -/
  parseEnv : ParseEnv

/-- `navigate_to_profile` (scraper.py lines 106-141): its own `try` wraps
everything, so the call never raises.  After a successful URL read, the
checkpoint/auth-wall test runs first, the login test second; subsequent
waiting and scrolling swallow their own exceptions (lines 124-134) and
cannot change the outcome. -/
def navigate_to_profile (navRaw : Except PyExc String) : Bool × String :=
  match navRaw with
  | .error e => (false, e.msg)
  | .ok currentUrl =>
    if pyIn "checkpoint" currentUrl || pyIn "authwall" currentUrl then
      (false, "CAPTCHA or authentication required")
    else if pyIn "login" currentUrl then
      (false, "Redirected to login - session may have expired")
    else (true, "Success")

/-- `extract_profile_data` (scraper.py lines 143-187).  The second
component of a normal result records whether the LLM capability was
invoked.  The `try` around the parser import/construction catches only
`ImportError` (line 171), so any other exception from that step — such
as the configuration `ValueError` — propagates out (`Except.error`). -/
def extract_profile_data (env : ScrapeEnv) (url : String) :
    Except PyExc (PyDict × Bool) :=
  match navigate_to_profile env.navRaw with
  | (false, message) => .ok (mkFailure url message, false)
  | (true, _) =>
    match env.constructParser with
    | .error e =>
      if e.isImportError then
        .ok (mkFailure url ("AI parser import failed: " ++ e.msg), false)
      else .error e
    | .ok _ => .ok (parse_profile env.parseEnv url)

/-- The loop body of `scrape_multiple_profiles` (scraper.py lines
203-212), with `i` the zero-based position in the original list.  The
progress callback is an effect-free observer (`Unit`-valued); the
inter-profile delay has no observable effect and is dropped.  An
exception escaping `extract_profile_data` aborts the whole loop,
discarding the partial results — exactly as an uncaught exception
unwinds the Python `for`. -/
def scrapeGo (envs : Nat → ScrapeEnv) (cb : Nat → Nat → String → Unit)
    (total : Nat) : Nat → List String → Except PyExc (List PyDict)
  | _, [] => .ok []
  | i, url :: rest =>
    let _ := cb (i + 1) total url
    match extract_profile_data (envs i) url with
    | .error e => .error e
    | .ok (record, _) =>
      match scrapeGo envs cb total (i + 1) rest with
      | .error e => .error e
      | .ok records => .ok (record :: records)

/-- `scrape_multiple_profiles` (scraper.py lines 189-214). -/
def scrape_multiple_profiles (envs : Nat → ScrapeEnv)
    (cb : Nat → Nat → String → Unit) (urls : List String) :
    Except PyExc (List PyDict) :=
  scrapeGo envs cb urls.length 0 urls

/-! ## Concrete environments used by witnesses and counterexamples -/

/-- A `ParseEnv` whose fields are never reached by the scenario using it. -/
def idleParseEnv : ParseEnv where
  pageHtml := .error (.other "unused")
  soupSelectors := fun _ => .ok []
  dbgPreview := .ok ()
  dbgCleanText := .ok ()
  llm := .raises (.other "unused")

/-- A fully successful `ParseEnv` delivering the given extracted page text
and LLM response. -/
def okParseEnv (text : String) (resp : LLMResp) : ParseEnv where
  pageHtml := .ok "<html>"
  soupSelectors := fun _ => .ok [some text]
  dbgPreview := .ok ()
  dbgCleanText := .ok ()
  llm := resp

/-- A fully successful `ScrapeEnv` around `okParseEnv`. -/
def okScrapeEnv (text : String) (resp : LLMResp) : ScrapeEnv where
  navRaw := .ok "https://www.linkedin.com/in/jane/"
  constructParser := .ok ()
  parseEnv := okParseEnv text resp

/-- 150 repetitions of `a`: a page text whose normalization survives whole
(one 150-character line, comfortably past the 100-character gate). -/
def longText : String := ⟨List.replicate 150 'a'⟩

/-- Environment for the C2 counterexample: navigation succeeds, but the
parser construction raises the configuration `ValueError` of
`GeminiProfileParser.__init__` (no API key). -/
def c2Env : ScrapeEnv where
  navRaw := .ok "https://www.linkedin.com/in/jane/"
  constructParser := geminiParserInit Option.none true
  parseEnv := idleParseEnv

/-- Environment where navigation itself fails with a driver error. -/
def navErrEnv : ScrapeEnv where
  navRaw := .error (.other "net down")
  constructParser := .ok ()
  parseEnv := idleParseEnv

/-- The valid JSON document `",}"` (a string literal containing a comma
and a closing brace), on which the repair is not value-preserving. -/
def cexValidJson : String := "\",\x7d\""

/-- `n` copies of the block `abc123\n` (built directly so concrete
computations stay linear). -/
def buildRep : Nat → List Char
  | 0 => []
  | n + 1 => 'a' :: 'b' :: 'c' :: '1' :: '2' :: '3' :: '\n' :: buildRep n

/-- The six-character line every block of `buildRep` contributes. -/
def cexLine : List Char := ['a', 'b', 'c', '1', '2', '3']

/-- Page text of 5715 `abc123` lines: all survive the filters, and their
newline-join is 40004 characters, so the hard 40000-character cut falls
two characters into the final line. -/
def bigText : String := ⟨buildRep 5715⟩

/-- The record the pipeline builds when the LLM answers `{}` for URL
`u`: success, `error` present and `None`, no scalar fields. -/
def c3Rec : PyDict :=
  [("profile_url", .str "u"), ("success", .bool true), ("error", PyVal.none),
   ("experiences", placeholderExp), ("educations", placeholderEdu),
   ("skills", placeholderSkills)]

/-- An LLM answer carrying six experience entries. -/
def sixExpJson : String :=
  "\x7b\"experiences\": [\"a\",\"b\",\"c\",\"d\",\"e\",\"f\"]\x7d"

/-- The success record built from `sixExpJson` for URL `u`: the six
entries are kept verbatim. -/
def sixExpRecord : PyDict :=
  [("experiences", .list [.str "a", .str "b", .str "c", .str "d", .str "e", .str "f"]),
   ("profile_url", .str "u"), ("success", .bool true), ("error", PyVal.none),
   ("educations", placeholderEdu), ("skills", placeholderSkills)]

end Scraper

namespace Scraper

/-! ## Helper lemmas -/

theorem dictGet_set_self (d : PyDict) (k : String) (v : PyVal) :
    dictGet (dictSet d k v) k = some v := by
  induction d with
  | nil => simp [dictSet, dictGet]
  | cons p rest ih =>
    obtain ⟨k0, v0⟩ := p
    by_cases h : k0 = k
    · simp [dictSet, dictGet, h]
    · simp [dictSet, dictGet, h, ih]

theorem dictGet_set_ne (d : PyDict) (k k' : String) (v : PyVal) (h : k' ≠ k) :
    dictGet (dictSet d k v) k' = dictGet d k' := by
  induction d with
  | nil =>
    simp only [dictSet, dictGet]
    rw [if_neg (fun hh => h hh.symm)]
  | cons p rest ih =>
    obtain ⟨k0, v0⟩ := p
    by_cases h0 : k0 = k
    · subst h0
      have hne : ¬ k0 = k' := fun hh => h hh.symm
      simp [dictSet, dictGet, hne]
    · simp [dictSet, dictGet, h0, ih]

theorem dictSet_ne_nil (d : PyDict) (k : String) (v : PyVal) :
    dictSet d k v ≠ [] := by
  cases d with
  | nil => simp [dictSet]
  | cons p rest =>
    obtain ⟨k0, v0⟩ := p
    by_cases h : k0 = k <;> simp [dictSet, h]

theorem truthy_get_isSome (d : PyDict) (k : String)
    (h : pyTruthy (dictGetD d k .none) = true) :
    ∃ v, dictGet d k = some v ∧ pyTruthy v = true := by
  cases hv : dictGet d k with
  | none => rw [dictGetD, hv] at h; exact absurd h (by decide)
  | some v => exact ⟨v, rfl, by rwa [dictGetD, hv] at h⟩

theorem truthy_pyLen_ne_zero (v : PyVal) (n : Nat) (ht : pyTruthy v = true)
    (hl : pyLen v = some n) : n ≠ 0 := by
  cases v <;> simp [pyLen] at hl
  · rename_i s
    subst hl
    simp only [pyTruthy, Bool.not_eq_true'] at ht
    intro h0
    rw [String.length, List.length_eq_zero] at h0
    rw [h0] at ht
    simp at ht
  · rename_i xs
    subst hl
    simp only [pyTruthy, Bool.not_eq_true'] at ht
    intro h0
    rw [List.length_eq_zero] at h0
    rw [h0] at ht
    simp at ht
  · rename_i fs
    subst hl
    simp only [pyTruthy, Bool.not_eq_true'] at ht
    intro h0
    rw [List.length_eq_zero] at h0
    rw [h0] at ht
    simp at ht

theorem truthy_ne_nil (d : PyDict) (k : String)
    (h : pyTruthy (dictGetD d k .none) = true) : d ≠ [] := by
  obtain ⟨v, hv, _⟩ := truthy_get_isSome d k h
  intro h0
  rw [h0] at hv
  simp [dictGet] at hv

theorem normalizeField_falsy (d : PyDict) (key : String) (ph : PyVal)
    (h : pyTruthy (dictGetD d key .none) = false) :
    normalizeField d key ph = some (dictSet d key ph) := by
  simp [normalizeField, h]

theorem normalizeField_keep (d : PyDict) (key : String) (ph : PyVal)
    (ht : pyTruthy (dictGetD d key .none) = true) :
    normalizeField d key ph = Option.none ∨ normalizeField d key ph = some d := by
  obtain ⟨v, hv, hvt⟩ := truthy_get_isSome d key ht
  have hsame : dictGetD d key (.list []) = v := by rw [dictGetD, hv]; rfl
  unfold normalizeField
  rw [ht, hsame]
  cases hl : pyLen v with
  | none => simp
  | some n =>
    have hn := truthy_pyLen_ne_zero v n hvt hl
    simp [hn]

theorem normalizeField_some_of_truthy (d : PyDict) (key : String) (ph : PyVal)
    (d' : PyDict) (ht : pyTruthy (dictGetD d key .none) = true)
    (h : normalizeField d key ph = some d') : d' = d := by
  rcases normalizeField_keep d key ph ht with hk | hk <;> rw [hk] at h
  · cases h
  · cases h; rfl

theorem normalizeField_get_ne (d : PyDict) (key : String) (ph : PyVal)
    (d' : PyDict) (k : String) (hne : k ≠ key)
    (h : normalizeField d key ph = some d') : dictGet d' k = dictGet d k := by
  by_cases ht : pyTruthy (dictGetD d key .none) = true
  · rw [normalizeField_some_of_truthy d key ph d' ht h]
  · rw [normalizeField_falsy d key ph (by simpa using ht)] at h
    cases h
    exact dictGet_set_ne d key k ph hne

theorem normalizeField_truthy_out (d : PyDict) (key : String) (ph : PyVal)
    (d' : PyDict) (hph : pyTruthy ph = true)
    (h : normalizeField d key ph = some d') :
    pyTruthy (dictGetD d' key .none) = true := by
  by_cases ht : pyTruthy (dictGetD d key .none) = true
  · rw [normalizeField_some_of_truthy d key ph d' ht h]
    exact ht
  · rw [normalizeField_falsy d key ph (by simpa using ht)] at h
    cases h
    rw [dictGetD, dictGet_set_self]
    exact hph

theorem normalizeField_placeholder_out (d : PyDict) (key : String) (ph : PyVal)
    (d' : PyDict) (hf : pyTruthy (dictGetD d key .none) = false)
    (h : normalizeField d key ph = some d') :
    dictGetD d' key .none = ph := by
  rw [normalizeField_falsy d key ph hf] at h
  cases h
  rw [dictGetD, dictGet_set_self]
  rfl

theorem normalizeField_ne_nil (d : PyDict) (key : String) (ph : PyVal)
    (d' : PyDict) (h : normalizeField d key ph = some d') : d' ≠ [] := by
  by_cases ht : pyTruthy (dictGetD d key .none) = true
  · rw [normalizeField_some_of_truthy d key ph d' ht h]
    exact truthy_ne_nil d key ht
  · rw [normalizeField_falsy d key ph (by simpa using ht)] at h
    cases h
    exact dictSet_ne_nil d key ph

theorem finalize_destruct (d : PyDict) (url : String) (r : PyDict)
    (h : finalize d url = some r) :
    ∃ d4 d5,
      normalizeField (dictSet (dictSet (dictSet d "profile_url" (.str url))
        "success" (.bool true)) "error" PyVal.none) "experiences" placeholderExp = some d4 ∧
      normalizeField d4 "educations" placeholderEdu = some d5 ∧
      normalizeField d5 "skills" placeholderSkills = some r := by
  simp only [finalize] at h
  cases h1 : normalizeField (dictSet (dictSet (dictSet d "profile_url" (.str url))
      "success" (.bool true)) "error" PyVal.none) "experiences" placeholderExp with
  | none => rw [h1] at h; cases h
  | some d4 =>
    rw [h1] at h
    simp only [Option.some_bind] at h
    cases h2 : normalizeField d4 "educations" placeholderEdu with
    | none => rw [h2] at h; cases h
    | some d5 =>
      rw [h2] at h
      simp only [Option.some_bind] at h
      exact ⟨d4, d5, rfl, h2, h⟩

theorem finalize_spec (d : PyDict) (url : String) (r : PyDict)
    (h : finalize d url = some r) :
    dictGet r "success" = some (.bool true) ∧
    dictGet r "error" = some PyVal.none ∧
    dictGet r "profile_url" = some (.str url) ∧
    pyTruthy (dictGetD r "experiences" PyVal.none) = true ∧
    pyTruthy (dictGetD r "educations" PyVal.none) = true ∧
    pyTruthy (dictGetD r "skills" PyVal.none) = true ∧
    r ≠ [] := by
  obtain ⟨d4, d5, ha, hb, hc⟩ := finalize_destruct d url r h
  set d3 := dictSet (dictSet (dictSet d "profile_url" (.str url)) "success" (.bool true))
    "error" PyVal.none with hd3
  have g45 : ∀ k, k ≠ "educations" → k ≠ "skills" → dictGet r k = dictGet d4 k := by
    intro k hk1 hk2
    rw [normalizeField_get_ne d5 "skills" placeholderSkills r k hk2 hc,
        normalizeField_get_ne d4 "educations" placeholderEdu d5 k hk1 hb]
  have g34 : ∀ k, k ≠ "experiences" → k ≠ "educations" → k ≠ "skills" →
      dictGet r k = dictGet d3 k := by
    intro k hk0 hk1 hk2
    rw [g45 k hk1 hk2, normalizeField_get_ne d3 "experiences" placeholderExp d4 k hk0 ha]
  refine ⟨?_, ?_, ?_, ?_, ?_, ?_,
    normalizeField_ne_nil d5 "skills" placeholderSkills r hc⟩
  · rw [g34 "success" (by decide) (by decide) (by decide), hd3,
      dictGet_set_ne _ _ _ _ (by decide), dictGet_set_self]
  · rw [g34 "error" (by decide) (by decide) (by decide), hd3, dictGet_set_self]
  · rw [g34 "profile_url" (by decide) (by decide) (by decide), hd3,
      dictGet_set_ne _ _ _ _ (by decide), dictGet_set_ne _ _ _ _ (by decide),
      dictGet_set_self]
  · have h4 : pyTruthy (dictGetD d4 "experiences" PyVal.none) = true :=
      normalizeField_truthy_out d3 "experiences" placeholderExp d4 (by decide) ha
    rw [dictGetD, g45 "experiences" (by decide) (by decide)]
    rw [dictGetD] at h4
    exact h4
  · have h5 : pyTruthy (dictGetD d5 "educations" PyVal.none) = true :=
      normalizeField_truthy_out d4 "educations" placeholderEdu d5 (by decide) hb
    rw [dictGetD,
      normalizeField_get_ne d5 "skills" placeholderSkills r "educations" (by decide) hc]
    rw [dictGetD] at h5
    exact h5
  · exact normalizeField_truthy_out d5 "skills" placeholderSkills r (by decide) hc

theorem finalize_preserve (d : PyDict) (url : String) (r : PyDict) (k : String)
    (h : finalize d url = some r)
    (h1 : k ≠ "profile_url") (h2 : k ≠ "success") (h3 : k ≠ "error")
    (h4 : k ≠ "experiences") (h5 : k ≠ "educations") (h6 : k ≠ "skills") :
    dictGet r k = dictGet d k := by
  obtain ⟨d4, d5, ha, hb, hc⟩ := finalize_destruct d url r h
  rw [normalizeField_get_ne d5 "skills" placeholderSkills r k h6 hc,
      normalizeField_get_ne d4 "educations" placeholderEdu d5 k h5 hb,
      normalizeField_get_ne _ "experiences" placeholderExp d4 k h4 ha,
      dictGet_set_ne _ _ _ _ h3, dictGet_set_ne _ _ _ _ h2, dictGet_set_ne _ _ _ _ h1]

theorem finalize_keep (d : PyDict) (url : String) (r : PyDict)
    (h : finalize d url = some r) :
    (pyTruthy (dictGetD d "experiences" PyVal.none) = true →
      dictGet r "experiences" = dictGet d "experiences") ∧
    (pyTruthy (dictGetD d "educations" PyVal.none) = true →
      dictGet r "educations" = dictGet d "educations") ∧
    (pyTruthy (dictGetD d "skills" PyVal.none) = true →
      dictGet r "skills" = dictGet d "skills") := by
  obtain ⟨d4, d5, ha, hb, hc⟩ := finalize_destruct d url r h
  set d3 := dictSet (dictSet (dictSet d "profile_url" (.str url)) "success" (.bool true))
    "error" PyVal.none with hd3
  have base : ∀ k, k ≠ "profile_url" → k ≠ "success" → k ≠ "error" →
      dictGet d3 k = dictGet d k := by
    intro k hk1 hk2 hk3
    rw [hd3, dictGet_set_ne _ _ _ _ hk3, dictGet_set_ne _ _ _ _ hk2,
      dictGet_set_ne _ _ _ _ hk1]
  refine ⟨?_, ?_, ?_⟩
  · intro ht
    have ht3 : pyTruthy (dictGetD d3 "experiences" PyVal.none) = true := by
      rw [dictGetD, base "experiences" (by decide) (by decide) (by decide)]
      rw [dictGetD] at ht
      exact ht
    have he : d4 = d3 := normalizeField_some_of_truthy d3 "experiences" placeholderExp d4 ht3 ha
    rw [normalizeField_get_ne d5 "skills" placeholderSkills r "experiences" (by decide) hc,
        normalizeField_get_ne d4 "educations" placeholderEdu d5 "experiences" (by decide) hb,
        he, base "experiences" (by decide) (by decide) (by decide)]
  · intro ht
    have hd4 : dictGet d4 "educations" = dictGet d "educations" := by
      rw [normalizeField_get_ne d3 "experiences" placeholderExp d4 "educations" (by decide) ha,
          base "educations" (by decide) (by decide) (by decide)]
    have ht4 : pyTruthy (dictGetD d4 "educations" PyVal.none) = true := by
      rw [dictGetD, hd4]
      rw [dictGetD] at ht
      exact ht
    have he : d5 = d4 := normalizeField_some_of_truthy d4 "educations" placeholderEdu d5 ht4 hb
    rw [normalizeField_get_ne d5 "skills" placeholderSkills r "educations" (by decide) hc,
        he, hd4]
  · intro ht
    have hd5 : dictGet d5 "skills" = dictGet d "skills" := by
      rw [normalizeField_get_ne d4 "educations" placeholderEdu d5 "skills" (by decide) hb,
          normalizeField_get_ne d3 "experiences" placeholderExp d4 "skills" (by decide) ha,
          base "skills" (by decide) (by decide) (by decide)]
    have ht5 : pyTruthy (dictGetD d5 "skills" PyVal.none) = true := by
      rw [dictGetD, hd5]
      rw [dictGetD] at ht
      exact ht
    have he : r = d5 := normalizeField_some_of_truthy d5 "skills" placeholderSkills r ht5 hc
    rw [he, hd5]

theorem finalize_placeholder (d : PyDict) (url : String) (r : PyDict)
    (h : finalize d url = some r) :
    (pyTruthy (dictGetD d "experiences" PyVal.none) = false →
      dictGetD r "experiences" PyVal.none = placeholderExp) ∧
    (pyTruthy (dictGetD d "educations" PyVal.none) = false →
      dictGetD r "educations" PyVal.none = placeholderEdu) ∧
    (pyTruthy (dictGetD d "skills" PyVal.none) = false →
      dictGetD r "skills" PyVal.none = placeholderSkills) := by
  obtain ⟨d4, d5, ha, hb, hc⟩ := finalize_destruct d url r h
  set d3 := dictSet (dictSet (dictSet d "profile_url" (.str url)) "success" (.bool true))
    "error" PyVal.none with hd3
  have base : ∀ k, k ≠ "profile_url" → k ≠ "success" → k ≠ "error" →
      dictGet d3 k = dictGet d k := by
    intro k hk1 hk2 hk3
    rw [hd3, dictGet_set_ne _ _ _ _ hk3, dictGet_set_ne _ _ _ _ hk2,
      dictGet_set_ne _ _ _ _ hk1]
  refine ⟨?_, ?_, ?_⟩
  · intro hf
    have hf3 : pyTruthy (dictGetD d3 "experiences" PyVal.none) = false := by
      rw [dictGetD, base "experiences" (by decide) (by decide) (by decide)]
      rw [dictGetD] at hf
      exact hf
    have hph := normalizeField_placeholder_out d3 "experiences" placeholderExp d4 hf3 ha
    rw [dictGetD,
      normalizeField_get_ne d5 "skills" placeholderSkills r "experiences" (by decide) hc,
      normalizeField_get_ne d4 "educations" placeholderEdu d5 "experiences" (by decide) hb]
    rw [dictGetD] at hph
    exact hph
  · intro hf
    have hd4 : dictGet d4 "educations" = dictGet d "educations" := by
      rw [normalizeField_get_ne d3 "experiences" placeholderExp d4 "educations" (by decide) ha,
          base "educations" (by decide) (by decide) (by decide)]
    have hf4 : pyTruthy (dictGetD d4 "educations" PyVal.none) = false := by
      rw [dictGetD, hd4]
      rw [dictGetD] at hf
      exact hf
    have hph := normalizeField_placeholder_out d4 "educations" placeholderEdu d5 hf4 hb
    rw [dictGetD,
      normalizeField_get_ne d5 "skills" placeholderSkills r "educations" (by decide) hc]
    rw [dictGetD] at hph
    exact hph
  · intro hf
    have hd5 : dictGet d5 "skills" = dictGet d "skills" := by
      rw [normalizeField_get_ne d4 "educations" placeholderEdu d5 "skills" (by decide) hb,
          normalizeField_get_ne d3 "experiences" placeholderExp d4 "skills" (by decide) ha,
          base "skills" (by decide) (by decide) (by decide)]
    have hf5 : pyTruthy (dictGetD d5 "skills" PyVal.none) = false := by
      rw [dictGetD, hd5]
      rw [dictGetD] at hf
      exact hf
    exact normalizeField_placeholder_out d5 "skills" placeholderSkills r hf5 hc

theorem scrapeGo_spec (envs : Nat → ScrapeEnv) (cb : Nat → Nat → String → Unit)
    (total : Nat) :
    ∀ (urls : List String) (i : Nat) (res : List PyDict),
      scrapeGo envs cb total i urls = .ok res →
      res.length = urls.length ∧
      ∀ j (hj : j < urls.length) (hr : j < res.length),
        ∃ b, extract_profile_data (envs (i + j)) (urls.get ⟨j, hj⟩) =
          .ok (res.get ⟨j, hr⟩, b) := by
  intro urls
  induction urls with
  | nil =>
    intro i res h
    cases h
    exact ⟨rfl, fun j hj => absurd hj (Nat.not_lt_zero j)⟩
  | cons u rest ih =>
    intro i res h
    unfold scrapeGo at h
    cases h1 : extract_profile_data (envs i) u with
    | error e => rw [h1] at h; cases h
    | ok p =>
      obtain ⟨r, b⟩ := p
      rw [h1] at h
      cases h2 : scrapeGo envs cb total (i + 1) rest with
      | error e => rw [h2] at h; cases h
      | ok rs =>
        rw [h2] at h
        cases h
        obtain ⟨hlen, hspec⟩ := ih (i + 1) rs h2
        refine ⟨by simp [hlen], ?_⟩
        intro j hj hr
        cases j with
        | zero => exact ⟨b, by simpa using h1⟩
        | succ j =>
          have hj' : j < rest.length := by simpa using hj
          have hr' : j < rs.length := by simpa using hr
          obtain ⟨b', hb'⟩ := hspec j hj' hr'
          refine ⟨b', ?_⟩
          have harith : i + 1 + j = i + (j + 1) := by omega
          rw [harith] at hb'
          simpa using hb'

theorem splitAux_line (t : List Char) :
    splitOnCharAux '\n' ('a' :: 'b' :: 'c' :: '1' :: '2' :: '3' :: '\n' :: t) [] =
      cexLine :: splitOnCharAux '\n' t [] := rfl

theorem split_buildRep (n : Nat) :
    splitOnChar '\n' (buildRep n) = List.replicate n cexLine ++ [[]] := by
  induction n with
  | zero => rfl
  | succ m ih =>
    show splitOnCharAux '\n' (buildRep (m + 1)) [] = _
    rw [buildRep, splitAux_line]
    rw [show splitOnCharAux '\n' (buildRep m) [] = splitOnChar '\n' (buildRep m) from rfl,
      ih, List.replicate_succ]
    rfl

theorem filter_replicate_pos (p : List Char → Bool) (a : List Char) (hp : p a = true) :
    ∀ n, List.filter p (List.replicate n a) = List.replicate n a := by
  intro n
  induction n with
  | zero => rfl
  | succ m ih => simp [List.replicate_succ, hp, ih]

theorem keptLines_bigText : keptLines bigText.data = List.replicate 5715 cexLine := by
  show keptLines (buildRep 5715) = _
  unfold keptLines
  rw [split_buildRep, List.map_append, List.map_replicate]
  rw [show pyStripChars cexLine = cexLine from rfl]
  rw [List.filter_append, filter_replicate_pos keepLine cexLine (by decide)]
  rw [show List.map pyStripChars [[]] = [[]] from rfl]
  rw [show List.filter keepLine [([] : List Char)] = [] from rfl]
  rw [List.append_nil]

theorem joinNl_cons_cons (a b : List Char) (t : List (List Char)) :
    joinNl (a :: b :: t) = a ++ '\n' :: joinNl (b :: t) := rfl

theorem joinNl_replicate_step (l : List Char) (m : Nat) :
    joinNl (List.replicate (m + 2) l) =
      l ++ '\n' :: joinNl (List.replicate (m + 1) l) := by
  rw [show m + 2 = (m + 1) + 1 from rfl, List.replicate_succ, List.replicate_succ l m,
    joinNl_cons_cons, ← List.replicate_succ]

theorem joinNl_replicate_snoc (l : List Char) :
    ∀ m, joinNl (List.replicate (m + 2) l) =
      joinNl (List.replicate (m + 1) l) ++ '\n' :: l := by
  intro m
  induction m with
  | zero => rfl
  | succ k ih =>
    rw [joinNl_replicate_step l (k + 1), show k + 1 + 1 = k + 2 from rfl]
    nth_rewrite 1 [ih]
    rw [joinNl_replicate_step l k]
    simp

theorem joinNl_replicate_length :
    ∀ m, (joinNl (List.replicate (m + 1) cexLine)).length = 7 * m + 6 := by
  intro m
  induction m with
  | zero => rfl
  | succ k ih =>
    rw [show k + 1 + 1 = k + 2 from rfl, joinNl_replicate_step cexLine k]
    rw [List.length_append, List.length_cons, ih]
    show 6 + (7 * k + 6 + 1) = 7 * (k + 1) + 6
    omega

theorem splitAux_append (c : Char) (v : List Char) :
    ∀ (u : List Char) (acc : List Char),
      splitOnCharAux c (u ++ c :: v) acc =
        splitOnCharAux c u acc ++ splitOnCharAux c v [] := by
  intro u
  induction u with
  | nil => intro acc; simp [splitOnCharAux]
  | cons x u' ih =>
    intro acc
    by_cases hx : x = c
    · subst hx
      simp [splitOnCharAux, ih]
    · simp [splitOnCharAux, hx, ih]

theorem splitAux_no_sep (c : Char) :
    ∀ (l acc : List Char), c ∉ l →
      splitOnCharAux c l acc = [acc.reverse ++ l] := by
  intro l
  induction l with
  | nil => intro acc _; simp [splitOnCharAux]
  | cons x xs ih =>
    intro acc hmem
    have hx : ¬ x = c := fun hh => hmem (hh ▸ List.mem_cons_self x xs)
    have hxs : c ∉ xs := fun hh => hmem (List.mem_cons_of_mem x hh)
    simp [splitOnCharAux, hx, ih (x :: acc) hxs]

theorem split_joinNl :
    ∀ ls : List (List Char), (∀ l ∈ ls, '\n' ∉ l) → ls ≠ [] →
      splitOnChar '\n' (joinNl ls) = ls := by
  intro ls
  induction ls with
  | nil => intro _ h; exact absurd rfl h
  | cons l rest ih =>
    intro hmem _
    cases rest with
    | nil =>
      show splitOnCharAux '\n' l [] = [l]
      simpa using splitAux_no_sep '\n' l [] (hmem l (List.mem_cons_self l []))
    | cons l' rest' =>
      rw [joinNl_cons_cons]
      show splitOnCharAux '\n' (l ++ '\n' :: joinNl (l' :: rest')) [] = _
      rw [splitAux_append '\n' (joinNl (l' :: rest')) l []]
      rw [show splitOnCharAux '\n' l [] = [l] by
        simpa using splitAux_no_sep '\n' l [] (hmem l (List.mem_cons_self l (l' :: rest')))]
      rw [show splitOnCharAux '\n' (joinNl (l' :: rest')) [] =
          splitOnChar '\n' (joinNl (l' :: rest')) from rfl]
      rw [ih (fun x hx => hmem x (List.mem_cons_of_mem l hx)) (by simp)]
      rfl

theorem pyStripChars_sublist (l : List Char) : (pyStripChars l).Sublist l := by
  unfold pyStripChars
  have h1 : (l.dropWhile isPySpace).Sublist l := List.dropWhile_sublist isPySpace
  have h2 : (((l.dropWhile isPySpace).reverse.dropWhile isPySpace)).Sublist
      (l.dropWhile isPySpace).reverse := List.dropWhile_sublist isPySpace
  have h3 := h2.reverse
  rw [List.reverse_reverse] at h3
  exact h3.trans h1

theorem splitAux_mem_no_sep (c : Char) :
    ∀ (l acc : List Char), c ∉ acc →
      ∀ m ∈ splitOnCharAux c l acc, c ∉ m := by
  intro l
  induction l with
  | nil =>
    intro acc hacc m hm
    simp [splitOnCharAux] at hm
    subst hm
    simpa using hacc
  | cons x xs ih =>
    intro acc hacc m hm
    by_cases hx : x = c
    · subst hx
      simp only [splitOnCharAux, if_pos rfl] at hm
      rcases List.mem_cons.mp hm with hm | hm
      · subst hm; simpa using hacc
      · exact ih [] (by simp) m hm
    · simp only [splitOnCharAux, if_neg hx] at hm
      have hacc' : c ∉ x :: acc := by
        intro hh
        rcases List.mem_cons.mp hh with hh | hh
        · exact hx hh.symm
        · exact hacc hh
      exact ih (x :: acc) hacc' m hm

theorem keptLines_no_newline (text : List Char) :
    ∀ l ∈ keptLines text, '\n' ∉ l := by
  intro l hl
  unfold keptLines at hl
  have hl2 := List.mem_of_mem_filter hl
  obtain ⟨l0, hl0, hstrip⟩ := List.mem_map.mp hl2
  have h0 : '\n' ∉ l0 :=
    splitAux_mem_no_sep '\n' text [] (by simp) l0 hl0
  subst hstrip
  intro hmem
  exact h0 ((pyStripChars_sublist l0).subset hmem)

theorem keepLine_good (l : List Char) (h : keepLine l = true) :
    pyIsDigit l = false ∧ 3 ≤ l.length ∧ 10 * countSpecial l ≤ 3 * l.length := by
  unfold keepLine at h
  simp only [Bool.and_eq_true, Bool.not_eq_true'] at h
  obtain ⟨⟨⟨⟨⟨⟨-, h2⟩, h3⟩, -⟩, -⟩, -⟩, h7⟩ := h
  refine ⟨h2, ?_, ?_⟩
  · have h3' : 2 < l.length := Nat.blt_eq ▸ h3
    omega
  · exact Nat.ble_eq ▸ h7

theorem clean_data (text : String) :
    (clean_lines_pipeline text).data =
      (joinNl (keptLines text.data)).take 40000 := by
  unfold clean_lines_pipeline
  by_cases h : Nat.blt 40000 (joinNl (keptLines text.data)).length = true
  · simp [h]
  · have hle : (joinNl (keptLines text.data)).length ≤ 40000 := by
      have hlt : ¬ 40000 < (joinNl (keptLines text.data)).length := by
        rw [← Nat.blt_eq]
        exact h
      omega
    simp only [h, if_false]
    exact (List.take_of_length_le hle).symm

theorem html_to_clean_text_some (soup : Except PyExc (List (Option String)))
    (dbg : Except PyExc Unit) (s : String)
    (h : html_to_clean_text soup dbg = some s) :
    ∃ text, s = clean_lines_pipeline text := by
  cases hsoup : soup with
  | error e =>
    simp [html_to_clean_text, html_to_clean_text_run, html_clean_body, hsoup] at h
  | ok sels =>
    cases hpm : pickMain sels with
    | some text =>
      cases hdbg : dbg with
      | error e =>
        simp [html_to_clean_text, html_to_clean_text_run, html_clean_body,
          html_clean_rest, hsoup, hpm, hdbg] at h
      | ok u =>
        refine ⟨text, ?_⟩
        simp [html_to_clean_text, html_to_clean_text_run, html_clean_body,
          html_clean_rest, hsoup, hpm, hdbg] at h
        exact h.symm
    | none =>
      cases hfb : sels.getD 3 Option.none with
      | none =>
        simp only [List.getD, List.get?_eq_getElem?] at hfb
        simp [html_to_clean_text, html_to_clean_text_run, html_clean_body,
          hsoup, hpm, hfb] at h
      | some text =>
        simp only [List.getD, List.get?_eq_getElem?] at hfb
        cases hdbg : dbg with
        | error e =>
          simp [html_to_clean_text, html_to_clean_text_run, html_clean_body,
            html_clean_rest, hsoup, hpm, hfb, hdbg] at h
        | ok u =>
          refine ⟨text, ?_⟩
          simp [html_to_clean_text, html_to_clean_text_run, html_clean_body,
            html_clean_rest, hsoup, hpm, hfb, hdbg] at h
          exact h.symm

theorem mkFailure_success (url msg : String) :
    dictGet (mkFailure url msg) "success" = some (.bool false) := rfl

theorem mkFailure_keys (url msg : String) :
    dictKeys (mkFailure url msg) = ["profile_url", "error", "success"] := rfl

theorem with_gemini_destruct (resp : LLMResp) (ct url : String) (pd : PyDict)
    (h : with_gemini resp ct url = some pd) :
    ∃ d, responseDict resp = some d ∧ finalize d url = some pd := by
  unfold with_gemini at h
  cases hrd : responseDict resp with
  | none => rw [hrd] at h; cases h
  | some d => rw [hrd] at h; exact ⟨d, rfl, h⟩

theorem parse_profile_cases (env : ParseEnv) (url : String) :
    (∃ msg, parse_profile env url = (mkFailure url msg, false)) ∨
    parse_profile env url = (mkFailure url "Gemini extraction failed", true) ∨
    (∃ d r, responseDict env.llm = some d ∧ finalize d url = some r ∧
      parse_profile env url = (r, true)) := by
  cases hpage : env.pageHtml with
  | error e => exact Or.inl ⟨e.msg, by simp [parse_profile, hpage]⟩
  | ok html =>
    cases hclean : html_to_clean_text (env.soupSelectors html) env.dbgPreview with
    | none =>
      exact Or.inl ⟨"Failed to extract text from HTML",
        by simp [parse_profile, hpage, hclean]⟩
    | some ct =>
      by_cases hlen : ct.length < 100
      · exact Or.inl ⟨"Failed to extract text from HTML",
          by simp [parse_profile, hpage, hclean, hlen]⟩
      · cases hdbg : env.dbgCleanText with
        | error e =>
          exact Or.inl ⟨e.msg, by simp [parse_profile, hpage, hclean, hlen, hdbg]⟩
        | ok u =>
          cases hwg : with_gemini env.llm ct url with
          | none =>
            refine Or.inr (Or.inl ?_)
            simp only [parse_profile, hpage, hclean, hlen, if_false, hdbg]
            simp only [extract_structured_data, hwg]
            rfl
          | some pd =>
            obtain ⟨d, hd, hfin⟩ := with_gemini_destruct env.llm ct url pd hwg
            obtain ⟨hsucc, -, -, -, -, -, hne⟩ := finalize_spec d url pd hfin
            refine Or.inr (Or.inr ⟨d, pd, hd, hfin, ?_⟩)
            have hempty : pd.isEmpty = false := by
              cases pd with
              | nil => exact absurd rfl hne
              | cons p rest => rfl
            have hgd : dictGetD pd "success" PyVal.none = .bool true := by
              rw [dictGetD, hsucc]
              rfl
            simp only [parse_profile, hpage, hclean, hlen, if_false, hdbg]
            simp only [extract_structured_data, hwg, hempty, Bool.false_eq_true,
              if_false, hgd]
            simp [pyTruthy]

theorem extract_profile_cases (env : ScrapeEnv) (url : String) (r : PyDict) (b : Bool)
    (h : extract_profile_data env url = .ok (r, b)) :
    (∃ msg, r = mkFailure url msg) ∨
    (∃ d, responseDict env.parseEnv.llm = some d ∧ finalize d url = some r) := by
  unfold extract_profile_data at h
  rcases hnav : navigate_to_profile env.navRaw with ⟨bb, m⟩
  rw [hnav] at h
  cases bb
  · cases h
    exact Or.inl ⟨m, rfl⟩
  · cases hcp : env.constructParser with
    | error e =>
      rw [hcp] at h
      by_cases him : e.isImportError = true
      · simp only [him, if_true] at h
        cases h
        exact Or.inl ⟨_, rfl⟩
      · simp [him] at h
    | ok u =>
      rw [hcp] at h
      injection h with h2
      rcases parse_profile_cases env.parseEnv url with ⟨msg, hm⟩ | hm |
        ⟨d, rr, hd, hfin, hm⟩
      · rw [hm] at h2
        cases h2
        exact Or.inl ⟨msg, rfl⟩
      · rw [hm] at h2
        cases h2
        exact Or.inl ⟨"Gemini extraction failed", rfl⟩
      · rw [hm] at h2
        cases h2
        exact Or.inr ⟨d, hd, hfin⟩

/-! ## Claims -/

/-- Claim C1: for every input sequence of URLs on which
`scrape_multiple_profiles` returns normally, the result has exactly the
same length, in the same order, with the record at each position the one
`extract_profile_data` produced for the URL at that position. -/
theorem C1_scrapeMany_length_order (envs : Nat → ScrapeEnv)
    (cb : Nat → Nat → String → Unit) (urls : List String) (res : List PyDict)
    (h : scrape_multiple_profiles envs cb urls = .ok res) :
    res.length = urls.length ∧
    ∀ i (hi : i < urls.length) (hr : i < res.length),
      ∃ b, extract_profile_data (envs i) (urls.get ⟨i, hi⟩) =
        .ok (res.get ⟨i, hr⟩, b) := by
  obtain ⟨hlen, hspec⟩ := scrapeGo_spec envs cb urls.length urls 0 res h
  exact ⟨hlen, fun i hi hr => by simpa using hspec i hi hr⟩

/-- Witness for C1 at a concrete two-URL batch whose navigations fail. -/
theorem C1_witness :
    ([mkFailure "u1" "net down", mkFailure "u2" "net down"] : List PyDict).length =
      (["u1", "u2"] : List String).length :=
  (C1_scrapeMany_length_order (fun _ => navErrEnv) (fun _ _ _ => ()) ["u1", "u2"]
    [mkFailure "u1" "net down", mkFailure "u2" "net down"] rfl).1

/-- Claim C2, amended: per-URL exceptions are contained provided the
parser import/construction step raises nothing but `ImportError`; the
unamended claim fails because that step runs during each URL's
processing and only `ImportError` is caught there. -/
theorem C2_containment_amended (env : ScrapeEnv) (url : String)
    (h : env.constructParser = .ok () ∨
      ∃ m, env.constructParser = .error (.importError m)) :
    ∃ r, extract_profile_data env url = .ok r := by
  unfold extract_profile_data
  rcases hnav : navigate_to_profile env.navRaw with ⟨b, m⟩
  cases b
  · exact ⟨_, rfl⟩
  · rcases h with h | ⟨msg, h⟩ <;> rw [h]
    · exact ⟨_, rfl⟩
    · exact ⟨(mkFailure url ("AI parser import failed: " ++ msg), false),
        by simp [PyExc.isImportError, PyExc.msg]⟩

/-- Witness for C2 (amended) at a fully successful environment. -/
theorem C2_witness :
    ∃ r, extract_profile_data (okScrapeEnv longText (.raises (.other "x"))) "u" = .ok r :=
  C2_containment_amended (okScrapeEnv longText (.raises (.other "x"))) "u" (Or.inl rfl)

/-- Counterexample to claim C2 as stated: with a present navigation but a
missing API key, the construction `ValueError` raised while processing a
URL escapes `extract_profile_data` (no failure record is produced) and
aborts the whole `scrape_multiple_profiles` batch. -/
theorem C2_counterexample :
    extract_profile_data c2Env "https://www.linkedin.com/in/jane/" =
      .error (.valueError "GEMINI_API_KEY not found. This parser requires Gemini AI.") ∧
    scrape_multiple_profiles (fun _ => c2Env) (fun _ _ _ => ()) ["u1", "u2"] =
      .error (.valueError "GEMINI_API_KEY not found. This parser requires Gemini AI.") :=
  ⟨rfl, rfl⟩

/-- Claim C3, amended: every record a normally returning
`extract_profile_data` produces is either a success record — `success`
is `True`, `error` is present with value `None` (not absent),
`profile_url` is attached, the three sequence fields are present and
truthy, and any other key (the scalar fields included) is present
exactly as the parsed LLM object supplied it — or a failure record whose
keys are exactly `profile_url, error, success`. -/
theorem C3_record_shape_amended (env : ScrapeEnv) (url : String) (r : PyDict)
    (b : Bool) (h : extract_profile_data env url = .ok (r, b)) :
    (dictGet r "success" = some (.bool true) ∨
      dictGet r "success" = some (.bool false)) ∧
    (dictGet r "success" = some (.bool true) →
      dictGet r "error" = some PyVal.none ∧
      dictGet r "profile_url" = some (.str url) ∧
      pyTruthy (dictGetD r "experiences" PyVal.none) = true ∧
      pyTruthy (dictGetD r "educations" PyVal.none) = true ∧
      pyTruthy (dictGetD r "skills" PyVal.none) = true ∧
      ∃ d, responseDict env.parseEnv.llm = some d ∧
        ∀ k, k ≠ "profile_url" → k ≠ "success" → k ≠ "error" →
          k ≠ "experiences" → k ≠ "educations" → k ≠ "skills" →
          dictGet r k = dictGet d k) ∧
    (dictGet r "success" = some (.bool false) →
      dictKeys r = ["profile_url", "error", "success"]) := by
  rcases extract_profile_cases env url r b h with ⟨msg, hr⟩ | ⟨d, hd, hfin⟩
  · subst hr
    refine ⟨Or.inr (mkFailure_success url msg), ?_, fun _ => mkFailure_keys url msg⟩
    intro htrue
    have := (mkFailure_success url msg).symm.trans htrue
    simp at this
  · obtain ⟨hsucc, herr, hurl, hexp, hedu, hsk, hne⟩ := finalize_spec d url r hfin
    refine ⟨Or.inl hsucc, ?_, ?_⟩
    · intro _
      exact ⟨herr, hurl, hexp, hedu, hsk, d, hd,
        fun k h1 h2 h3 h4 h5 h6 => finalize_preserve d url r k hfin h1 h2 h3 h4 h5 h6⟩
    · intro hfalse
      have := hsucc.symm.trans hfalse
      simp at this

/-- Witness for C3 (amended): the concrete success record for the empty
LLM object has `error` present with value `None`. -/
theorem C3_witness : dictGet c3Rec "error" = some PyVal.none :=
  ((C3_record_shape_amended (okScrapeEnv longText (.textOk "\x7b\x7d")) "u" c3Rec
      true rfl).2.1 rfl).1

/-- Counterexample to claim C3 as stated: when the LLM answers `{}`, the
pipeline returns a success record in which `error` is present (with
value `None`, not absent) and the structured scalar field `name` is
missing. -/
theorem C3_counterexample :
    extract_profile_data (okScrapeEnv longText (.textOk "\x7b\x7d")) "u" =
      .ok (c3Rec, true) ∧
    dictGet c3Rec "success" = some (.bool true) ∧
    dictHasKey c3Rec "error" = true ∧
    dictGet c3Rec "error" = some PyVal.none ∧
    dictHasKey c3Rec "name" = false :=
  ⟨rfl, rfl, rfl, rfl, rfl⟩

/-- Claim C4, amended: in the code the repair runs only after the first
parse fails, so on any text that already parses as valid JSON the
parse-with-repair step returns exactly the original parsed value (the
repair transformation itself is not value-preserving on valid JSON). -/
theorem C4_repair_amended (s : String) (v : PyVal) (h : json_loads s = some v) :
    loadsWithRepair s = some v := by
  unfold loadsWithRepair
  rw [h]

/-- Witness for C4 (amended) on the document `{}`. -/
theorem C4_witness : loadsWithRepair "\x7b\x7d" = some (PyVal.dict []) :=
  C4_repair_amended "\x7b\x7d" (PyVal.dict []) rfl

/-- Counterexample to claim C4 as stated: the JSON document `",}"` (a
string containing a comma and a brace) is valid, yet the repair deletes
the comma inside the string literal, producing valid JSON with a
different parsed value. -/
theorem C4_counterexample :
    json_loads cexValidJson = some (.str ",\x7d") ∧
    repairJson cexValidJson = "\"\x7d\"" ∧
    json_loads (repairJson cexValidJson) = some (.str "\x7d") ∧
    PyVal.str ",\x7d" ≠ PyVal.str "\x7d" := by
  refine ⟨rfl, rfl, rfl, ?_⟩
  intro h
  rw [PyVal.str.injEq] at h
  exact absurd h (by decide)

/-- Claim C5, amended: the ≤5/≤3/≤15 caps on `experiences`, `educations`
and `skills` are only requested in the prompt — the code never truncates:
whenever the parsed LLM object carries a truthy value for one of these
fields, the successful record returns that value verbatim, whatever its
length. -/
theorem C5_no_truncation_amended (resp : LLMResp) (ct url : String)
    (pd d : PyDict) (h : with_gemini resp ct url = some pd)
    (hd : responseDict resp = some d) :
    (pyTruthy (dictGetD d "experiences" PyVal.none) = true →
      dictGet pd "experiences" = dictGet d "experiences") ∧
    (pyTruthy (dictGetD d "educations" PyVal.none) = true →
      dictGet pd "educations" = dictGet d "educations") ∧
    (pyTruthy (dictGetD d "skills" PyVal.none) = true →
      dictGet pd "skills" = dictGet d "skills") := by
  obtain ⟨d', hd', hfin⟩ := with_gemini_destruct resp ct url pd h
  have hdd : d' = d := by
    rw [hd] at hd'
    injection hd'.symm
  rw [hdd] at hfin
  exact finalize_keep d url pd hfin

/-- Witness for C5 (amended): the six-experience response is preserved
verbatim. -/
theorem C5_witness :
    dictGet sixExpRecord "experiences" =
      dictGet [("experiences",
        .list [.str "a", .str "b", .str "c", .str "d", .str "e", .str "f"])]
        "experiences" :=
  (C5_no_truncation_amended (.textOk sixExpJson) "x" "u" sixExpRecord
      [("experiences",
        .list [.str "a", .str "b", .str "c", .str "d", .str "e", .str "f"])]
      rfl rfl).1 rfl

/-- Counterexample to claim C5 as stated: an LLM response with six
experience entries yields a successful record whose `experiences`
sequence has six entries — more than the claimed cap of five. -/
theorem C5_counterexample :
    extract_structured_data (.textOk sixExpJson) "x" "u" = sixExpRecord ∧
    dictGet sixExpRecord "success" = some (.bool true) ∧
    pyLen (dictGetD sixExpRecord "experiences" PyVal.none) = some 6 ∧
    ¬ (6 ≤ 5) :=
  ⟨rfl, rfl, rfl, by decide⟩

/-- Claim C6: in every successful record the Prompter returns,
`experiences`, `educations` and `skills` are non-empty sequences
(whenever they are sequences at all), and a field that the parsed LLM
object left absent or as an empty sequence has been replaced by the
corresponding single-entry `N/A` placeholder. -/
theorem C6_nonempty_fields (resp : LLMResp) (ct url : String) (pd : PyDict)
    (h : with_gemini resp ct url = some pd) :
    ((∀ xs, dictGetD pd "experiences" PyVal.none = .list xs → xs ≠ []) ∧
     (∀ xs, dictGetD pd "educations" PyVal.none = .list xs → xs ≠ []) ∧
     (∀ xs, dictGetD pd "skills" PyVal.none = .list xs → xs ≠ [])) ∧
    (∀ d, responseDict resp = some d →
      ((dictGet d "experiences" = Option.none ∨
          dictGet d "experiences" = some (.list []) →
        dictGetD pd "experiences" PyVal.none = placeholderExp) ∧
       (dictGet d "educations" = Option.none ∨
          dictGet d "educations" = some (.list []) →
        dictGetD pd "educations" PyVal.none = placeholderEdu) ∧
       (dictGet d "skills" = Option.none ∨
          dictGet d "skills" = some (.list []) →
        dictGetD pd "skills" PyVal.none = placeholderSkills))) := by
  obtain ⟨d0, hd0, hfin⟩ := with_gemini_destruct resp ct url pd h
  obtain ⟨-, -, -, hexp, hedu, hsk, -⟩ := finalize_spec d0 url pd hfin
  have truthyList : ∀ (v : PyVal), pyTruthy v = true →
      ∀ xs, v = .list xs → xs ≠ [] := by
    intro v hv xs hxs
    subst hxs
    simp only [pyTruthy, Bool.not_eq_true'] at hv
    intro h0
    rw [h0] at hv
    simp at hv
  have falsyOf : ∀ (d : PyDict) (k : String),
      dictGet d k = Option.none ∨ dictGet d k = some (.list []) →
      pyTruthy (dictGetD d k PyVal.none) = false := by
    intro d k hk
    rcases hk with hk | hk <;> rw [dictGetD, hk] <;> rfl
  refine ⟨⟨fun xs => truthyList _ hexp xs, fun xs => truthyList _ hedu xs,
    fun xs => truthyList _ hsk xs⟩, ?_⟩
  intro d hd
  have hdd : d0 = d := by
    rw [hd0] at hd
    injection hd
  subst hdd
  obtain ⟨p1, p2, p3⟩ := finalize_placeholder d0 url pd hfin
  exact ⟨fun hk => p1 (falsyOf d0 "experiences" hk),
    fun hk => p2 (falsyOf d0 "educations" hk),
    fun hk => p3 (falsyOf d0 "skills" hk)⟩

/-- Witness for C6: the empty LLM object gets all three placeholders. -/
theorem C6_witness :
    dictGetD c3Rec "experiences" PyVal.none = placeholderExp :=
  (((C6_nonempty_fields (.textOk "\x7b\x7d") "x" "u" c3Rec rfl).2 [] rfl).1
    (Or.inl rfl))

/-- Claim C7, amended: the Normalizer is deterministic (a pure function)
and any non-null result is the first at-most-40000 characters of the
newline-join of the kept lines, each of which is non-all-digit, at least
3 characters long, and at most 30% drawn from the symbol set `{}[]":,`;
when no truncation occurs, every line of the returned string itself
satisfies those properties.  (As stated, the claim fails: the hard
40000-character cut can leave a final line fragment violating them.) -/
theorem C7_normalizer_amended (soup : Except PyExc (List (Option String)))
    (dbg : Except PyExc Unit) (s : String)
    (h : html_to_clean_text soup dbg = some s) :
    s.length ≤ 40000 ∧
    ∃ text : String,
      s.data = (joinNl (keptLines text.data)).take 40000 ∧
      (∀ l ∈ keptLines text.data,
        pyIsDigit l = false ∧ 3 ≤ l.length ∧ 10 * countSpecial l ≤ 3 * l.length) ∧
      ((joinNl (keptLines text.data)).length ≤ 40000 → keptLines text.data ≠ [] →
        ∀ l ∈ splitOnChar '\n' s.data,
          pyIsDigit l = false ∧ 3 ≤ l.length ∧ 10 * countSpecial l ≤ 3 * l.length) := by
  obtain ⟨text, hs⟩ := html_to_clean_text_some soup dbg s h
  subst hs
  have hdata := clean_data text
  constructor
  · show (clean_lines_pipeline text).data.length ≤ 40000
    rw [hdata, List.length_take]
    exact Nat.min_le_left _ _
  · refine ⟨text, hdata, ?_, ?_⟩
    · intro l hl
      have hl' : l ∈ List.filter keepLine
          ((splitOnChar '\n' text.data).map pyStripChars) := hl
      exact keepLine_good l (List.of_mem_filter hl')
    · intro hle hne l hl
      rw [hdata, List.take_of_length_le hle,
        split_joinNl (keptLines text.data) (keptLines_no_newline text.data) hne] at hl
      have hl' : l ∈ List.filter keepLine
          ((splitOnChar '\n' text.data).map pyStripChars) := hl
      exact keepLine_good l (List.of_mem_filter hl')

/-- Witness for C7 (amended) on the 150-character page text. -/
theorem C7_witness : (clean_lines_pipeline longText).length ≤ 40000 :=
  (C7_normalizer_amended (.ok [some longText]) (.ok ())
    (clean_lines_pipeline longText) rfl).1

/-- Counterexample to claim C7 as stated: on 5715 `abc123` lines the
filtered join is 40004 characters, so the returned (non-null) string is
truncated to 40000 characters and its final line is the two-character
fragment `ab` — a line of length ≤ 2, which the claim says cannot
occur. -/
theorem C7_counterexample :
    html_to_clean_text (Except.ok [some bigText]) (Except.ok ()) =
      some (clean_lines_pipeline bigText) ∧
    ∃ l, l ∈ splitOnChar '\n' (clean_lines_pipeline bigText).data ∧
      l.length ≤ 2 := by
  refine ⟨rfl, ⟨['a', 'b'], ?_, by decide⟩⟩
  have hdata := clean_data bigText
  rw [hdata, keptLines_bigText]
  have hsnoc : joinNl (List.replicate 5715 cexLine) =
      joinNl (List.replicate 5714 cexLine) ++ '\n' :: cexLine := by
    have h0 := joinNl_replicate_snoc cexLine 5713
    rw [show (5713 : Nat) + 2 = 5715 from rfl,
      show (5713 : Nat) + 1 = 5714 from rfl] at h0
    exact h0
  have hlen' : (joinNl (List.replicate 5714 cexLine)).length = 39997 := by
    have h0 := joinNl_replicate_length 5713
    rw [show (5713 : Nat) + 1 = 5714 from rfl] at h0
    rw [h0]
  have hJle : (joinNl (List.replicate 5714 cexLine)).length ≤ 40000 := by
    rw [hlen']
    omega
  rw [hsnoc, List.take_append_eq_append_take, List.take_of_length_le hJle, hlen',
    show List.take (40000 - 39997) ('\n' :: cexLine) = '\n' :: ['a', 'b'] from rfl]
  show ['a', 'b'] ∈ splitOnCharAux '\n'
    (joinNl (List.replicate 5714 cexLine) ++ '\n' :: ['a', 'b']) []
  rw [splitAux_append '\n' ['a', 'b'] (joinNl (List.replicate 5714 cexLine)) [],
    show splitOnCharAux '\n' ['a', 'b'] [] = [['a', 'b']] from rfl]
  exact List.mem_append_right _ (List.mem_singleton.mpr rfl)

/-- Claim C8: whenever normalization yields `None` or fewer than 100
characters, `parse_profile` returns the
`"Failed to extract text from HTML"` failure record and the LLM
capability is never invoked. -/
theorem C8_short_text_short_circuit (env : ParseEnv) (url html : String)
    (hhtml : env.pageHtml = .ok html)
    (hshort : html_to_clean_text (env.soupSelectors html) env.dbgPreview = Option.none ∨
      ∃ s, html_to_clean_text (env.soupSelectors html) env.dbgPreview = some s ∧
        s.length < 100) :
    parse_profile env url = (mkFailure url "Failed to extract text from HTML", false) := by
  rcases hshort with hnone | ⟨s, hsome, hlt⟩
  · simp [parse_profile, hhtml, hnone]
  · simp [parse_profile, hhtml, hsome, hlt]

/-- Witness for C8 with a page whose normalized text is 5 characters. -/
theorem C8_witness :
    parse_profile (okParseEnv "short" (.raises (.other "x"))) "u" =
      (mkFailure "u" "Failed to extract text from HTML", false) :=
  C8_short_text_short_circuit (okParseEnv "short" (.raises (.other "x"))) "u" "<html>"
    rfl (Or.inr ⟨"short", rfl, by decide⟩)

/-- Claim C9: after a navigation whose resulting URL contains
`checkpoint` or `authwall`, `extract_profile_data` returns the CAPTCHA
failure record; otherwise, if it contains `login`, the login-redirect
failure record — in both cases without invoking the Prompter. -/
theorem C9_nav_failures (env : ScrapeEnv) (url cur : String)
    (hnav : env.navRaw = .ok cur) :
    ((pyIn "checkpoint" cur = true ∨ pyIn "authwall" cur = true) →
      extract_profile_data env url =
        .ok (mkFailure url "CAPTCHA or authentication required", false)) ∧
    (pyIn "checkpoint" cur = false → pyIn "authwall" cur = false →
      pyIn "login" cur = true →
      extract_profile_data env url =
        .ok (mkFailure url "Redirected to login - session may have expired", false)) := by
  constructor
  · intro hcap
    unfold extract_profile_data navigate_to_profile
    rw [hnav]
    rcases hcap with h | h <;> simp [h]
  · intro h1 h2 h3
    unfold extract_profile_data navigate_to_profile
    rw [hnav]
    simp [h1, h2, h3]

/-- Witness for C9 at a checkpoint URL and at a login URL. -/
theorem C9_witness :
    extract_profile_data
        { navRaw := .ok "https://www.linkedin.com/checkpoint/challenge",
          constructParser := .ok (), parseEnv := idleParseEnv } "u" =
      .ok (mkFailure "u" "CAPTCHA or authentication required", false) ∧
    extract_profile_data
        { navRaw := .ok "https://www.linkedin.com/login?session_redirect=x",
          constructParser := .ok (), parseEnv := idleParseEnv } "u" =
      .ok (mkFailure "u" "Redirected to login - session may have expired", false) :=
  ⟨(C9_nav_failures _ "u" "https://www.linkedin.com/checkpoint/challenge" rfl).1
      (Or.inl (by decide)),
    (C9_nav_failures _ "u" "https://www.linkedin.com/login?session_redirect=x" rfl).2
      (by decide) (by decide) (by decide)⟩

/-- Claim C10: the Normalizer is total at its public interface — for
every environment (parse failure, missing body, failing debug write
included) the guarded `html_to_clean_text` finishes normally with a
string or `None`; no exception escapes the catch-all. -/
theorem C10_normalizer_total (soup : Except PyExc (List (Option String)))
    (dbgPreview : Except PyExc Unit) :
    ∃ r : Option String, html_to_clean_text_run soup dbgPreview = .ok r := by
  unfold html_to_clean_text_run
  cases html_clean_body soup dbgPreview <;> exact ⟨_, rfl⟩

end Scraper

